import Mathlib

/- Shallow embedding of the Azoteq IQS7219A proximity-sensor driver
   (drivers/iio/proximity/iqs7219.c) together with the closely related
   IQS323 variant found in the same repository.  The embedding covers the
   bus-transport retry loop, the ATI trigger state machine, the declarative
   register-field configuration builder, the interrupt-driven status
   decode/dispatch loop, the scan-multiplexer plumbing and the power-state
   controller.  Hardware and bus interactions are represented by explicit
   environment stubs (functions from attempt/poll indices to outcomes);
   16-bit device registers are represented as natural numbers with all
   masking written out explicitly, mirroring the C operators. -/

namespace Iqs

/-- Linux errno EINVAL, returned by the driver as -22 on invalid configuration. -/
def errInval : Int := 22

/-- Linux errno EIO, returned by the driver as -5 on bus-level failure. -/
def errIoErr : Int := 5

/-- Linux errno ENODATA, returned by the driver as -61 on a sentinel read. -/
def errNoData : Int := 61

/-- Linux errno EAGAIN, returned by the driver as -11 as a retry indication. -/
def errAgain : Int := 11

/-- Linux errno ETIMEDOUT, returned by the driver as -110 on ATI failure. -/
def errTimedOut : Int := 110

/-- Linux errno EBUSY, value 16. -/
def errBusy : Int := 16

/-- Reserved sentinel word IQS7219_COMMS_ERROR = 0xEEEE. -/
def commsError : Nat := 0xEEEE

/-- Retry ceiling IQS7219_NUM_RETRIES = IQS323_NUM_RETRIES = 5. -/
def numRetries : Nat := 5

/-- Mask of a full 16-bit register word. -/
def mask16 : Nat := 2 ^ 16 - 1

/-- Kernel macro GENMASK(h, l): bits h down to l set. -/
def genMask (h l : Nat) : Nat := (2 ^ (h + 1 - l) - 1) <<< l

/-- Kernel macro BIT(n). -/
def bitN (n : Nat) : Nat := 1 <<< n

/-- C idiom `w &= ~m` on a u16 register word: clear the bits of mask m. -/
def clear16 (w m : Nat) : Nat := w &&& (mask16 ^^^ m)

/- ------------------------------------------------------------------ -/
/- Bus transport: iqs7219_read_burst (identical in structure to
   __iqs9150_read_burst in the unnamed variant).                      -/
/- ------------------------------------------------------------------ -/

/-- Outcome of one attempt inside iqs7219_read_burst, as seen from the retry
loop: iqs7219_force_comms fails with a negative code, the I2C transfer fails
(the driver maps any short or negative transfer count to -EIO), or the
transfer completes and returns a list of 16-bit words. -/
inductive BurstStep where
  | commsErr (e : Int)
  | xferErr
  | data (ws : List Nat)
  deriving DecidableEq

/-- An attempt truly succeeds when the transfer completes and its first
returned word is not the reserved sentinel 0xEEEE. -/
def BurstStep.ok : BurstStep → Bool
  | .data ws => ws.headD 0 != commsError
  | _ => false

/-- Observable result of iqs7219_read_burst: the final return code, the number
of attempts that were executed, and the words handed back on success. -/
structure BurstRun where
  ret : Int
  attempts : Nat
  data : Option (List Nat)
  deriving DecidableEq

/-- Retry loop of iqs7219_read_burst (lines 763-784 of the C source).  The
environment stub gives the outcome of each attempt; `ret` is the C variable
holding the most recent attempt's code, `i` the attempt index and the last
argument the remaining loop iterations.  A comms failure, a transfer failure
(-EIO) and a sentinel first word (-ENODATA) all fall through to the next
iteration; anything else ends the loop with ret = 0 and the data. -/
def readBurstFrom (stub : Nat → BurstStep) (ret : Int) (i : Nat) : Nat → BurstRun
  | 0 => ⟨ret, 0, none⟩
  | fuel + 1 =>
    match stub i with
    | .commsErr e =>
      let r := readBurstFrom stub e (i + 1) fuel
      ⟨r.ret, r.attempts + 1, r.data⟩
    | .xferErr =>
      let r := readBurstFrom stub (-errIoErr) (i + 1) fuel
      ⟨r.ret, r.attempts + 1, r.data⟩
    | .data ws =>
      if ws.headD 0 = commsError then
        let r := readBurstFrom stub (-errNoData) (i + 1) fuel
        ⟨r.ret, r.attempts + 1, r.data⟩
      else ⟨0, 1, some ws⟩

/-- iqs7219_read_burst: up to IQS7219_NUM_RETRIES attempts, each consisting of
iqs7219_force_comms followed by one I2C transaction. -/
def iqs7219_read_burst (stub : Nat → BurstStep) : BurstRun :=
  readBurstFrom stub 0 0 numRetries

/- ------------------------------------------------------------------ -/
/- ATI trigger state machine: iqs7219_ati_trigger.                    -/
/- ------------------------------------------------------------------ -/

/-- Status bit IQS7219_SYS_STATUS_RESET = BIT(11). -/
def sysStatusReset : Nat := 2 ^ 11

/-- Status bit IQS7219_SYS_STATUS_ATI_ERROR = BIT(9). -/
def sysStatusAtiError : Nat := 2 ^ 9

/-- Status bit IQS7219_SYS_STATUS_ATI_ACTIVE = BIT(8). -/
def sysStatusAtiActive : Nat := 2 ^ 8

/-- Setup field IQS7219_SYS_SETUP_INTF_MODE_MASK = GENMASK(7, 6). -/
def sysSetupIntfModeMask : Nat := 2 ^ 7 + 2 ^ 6

/-- Setup field IQS7219_SYS_SETUP_PWR_MODE_MASK = GENMASK(5, 4). -/
def sysSetupPwrModeMask : Nat := 2 ^ 5 + 2 ^ 4

/-- Setup bit IQS7219_SYS_SETUP_REDO_ATI = BIT(2). -/
def sysSetupRedoAti : Nat := 2 ^ 2

/-- Outcome of the inner status-polling loop of one ATI attempt: ATI finished
successfully, the device flagged an ATI error, or the 2-second window elapsed.
Each constructor carries the index of the next unread status word. -/
inductive AtiWait where
  | succeeded (next : Nat)
  | errored (next : Nat)
  | timedOut (next : Nat)
  deriving DecidableEq

/-- Inner do-while loop of iqs7219_ati_trigger (lines 902-923): poll the ready
line and read the status register; while the ATI-active bit is set keep
waiting, an ATI-error bit ends the attempt in failure, and neither bit means
ATI succeeded.  `st` maps the index of each successful status read to the word
read; `fuel` is the number of reads the 2-second window admits. -/
def atiWait (st : Nat → Nat) : Nat → Nat → AtiWait
  | k, 0 => .timedOut k
  | k, fuel + 1 =>
    if st k &&& sysStatusAtiActive ≠ 0 then atiWait st (k + 1) fuel
    else if st k &&& sysStatusAtiError ≠ 0 then .errored (k + 1)
    else .succeeded (k + 1)

/-- Observable result of iqs7219_ati_trigger: the return code and the sequence
of values written to the system-setup register, in order. -/
structure AtiRun where
  result : Int
  writes : List Nat
  deriving DecidableEq

/-- Value written to IQS7219_SYS_SETUP at the start of every ATI attempt: the
power-mode field is forced to streaming/normal-power and the redo-ATI command
bit is set (`(sys_setup & ~IQS7219_SYS_SETUP_PWR_MODE_MASK) |
IQS7219_SYS_SETUP_REDO_ATI`). -/
def atiRedoWrite (sysSetup : Nat) : Nat :=
  (sysSetup &&& (mask16 ^^^ sysSetupPwrModeMask)) ||| sysSetupRedoAti

/-- Outer retry loop of iqs7219_ati_trigger (lines 888-929): up to five
attempts, each writing the redo-ATI command and then running the inner wait
loop.  On success the interface-mode bits are restored (`sys_setup |=
iqs7219->intf_mode`) by one final write of the system-setup register; after
the last failed attempt the function returns -ETIMEDOUT. -/
def atiLoop (st : Nat → Nat) (sysSetup intfMode fuel : Nat) : Nat → Nat → AtiRun
  | _, 0 => ⟨-errTimedOut, []⟩
  | k, att + 1 =>
    match atiWait st k fuel with
    | .succeeded _ => ⟨0, [atiRedoWrite sysSetup, sysSetup ||| intfMode]⟩
    | .errored k' =>
      let r := atiLoop st sysSetup intfMode fuel k' att
      ⟨r.result, atiRedoWrite sysSetup :: r.writes⟩
    | .timedOut k' =>
      let r := atiLoop st sysSetup intfMode fuel k' att
      ⟨r.result, atiRedoWrite sysSetup :: r.writes⟩

/-- iqs7219_ati_trigger: the system-setup word read at entry first has its
interface-mode field cleared (`sys_setup &= ~IQS7219_SYS_SETUP_INTF_MODE_MASK`),
then the retry loop runs with IQS7219_NUM_RETRIES attempts. -/
def iqs7219_ati_trigger (st : Nat → Nat) (sysSetupRead intfMode fuel : Nat) : AtiRun :=
  atiLoop st (sysSetupRead &&& (mask16 ^^^ sysSetupIntfModeMask)) intfMode fuel 0 numRetries

/-- Status bit IQS323_SYS_STATUS_RESET = BIT(7). -/
def iqs323SysStatusReset : Nat := 2 ^ 7

/-- Status bit IQS323_SYS_STATUS_ATI_ERROR = BIT(6). -/
def iqs323SysStatusAtiError : Nat := 2 ^ 6

/-- Status bit IQS323_SYS_STATUS_ATI_ACTIVE = BIT(5). -/
def iqs323SysStatusAtiActive : Nat := 2 ^ 5

/-- Retry loop of iqs323_ati_trigger (lines 1283-1319 of the iqs323 source).
Unlike the iqs7219 variant there is no inner polling loop: each attempt
performs one mode write carrying the redo-ATI command bit
(iqs323_write_mode with IQS323_SYS_SETUP_REDO_ATI), one ready-line wait
spanning the whole ATI window and one status read.  A status showing the
reset bit breaks out returning 0 so the interrupt handler may intervene; the
ATI-error bit sets -EIO and retries; the ATI-active bit sets -EBUSY and
retries; anything else breaks out with 0 and no further write.  The mode
write, the ready-line wait and the status read are modeled as succeeding;
`st` maps the attempt index to the status word read and `error` is the C
variable carrying the most recent code, returned as-is when the loop
exhausts its IQS323_NUM_RETRIES iterations.  The result pairs the final
return code with the number of mode writes performed. -/
def iqs323_ati_loop (st : Nat → Nat) (error : Int) (i : Nat) : Nat → Int × Nat
  | 0 => (error, 0)
  | fuel + 1 =>
    if st i &&& iqs323SysStatusReset ≠ 0 then (0, 1)
    else if st i &&& iqs323SysStatusAtiError ≠ 0 then
      let r := iqs323_ati_loop st (-errIoErr) (i + 1) fuel
      (r.1, r.2 + 1)
    else if st i &&& iqs323SysStatusAtiActive ≠ 0 then
      let r := iqs323_ati_loop st (-errBusy) (i + 1) fuel
      (r.1, r.2 + 1)
    else (0, 1)

/-- iqs323_ati_trigger: the retry loop with IQS323_NUM_RETRIES attempts. -/
def iqs323_ati_trigger (st : Nat → Nat) : Int × Nat :=
  iqs323_ati_loop st 0 0 numRetries

/- ------------------------------------------------------------------ -/
/- Register schema and configuration builder: iqs7219_parse_props and
   iqs323_parse_props.                                                -/
/- ------------------------------------------------------------------ -/

/-- Field descriptor, mirroring struct iqs7219_prop_desc / struct
iqs323_prop_desc: property name, register key, word offset within the group,
bit shift, bit width, optional substitution table (iqs323 only; the iqs7219
descriptor has no such member), value pitch, minimum and maximum, and the
invert flag for boolean fields.  The group id and human label take no part in
the field arithmetic and are omitted. -/
structure PropDesc where
  name : String
  reg_key : Nat
  reg_offset : Nat
  reg_shift : Nat
  reg_width : Nat
  val_subs : Option (List Nat)
  val_pitch : Nat
  val_min : Nat
  val_max : Nat
  invert : Bool
  deriving DecidableEq

/-- Short constructor for table rows without a substitution table. -/
def mkProp (name : String) (key off sh w pitch mn mx : Nat) (inv : Bool) : PropDesc :=
  ⟨name, key, off, sh, w, none, pitch, mn, mx, inv⟩

/-- Effective pitch: the C code defaults an unset (zero) val_pitch to 1
(`val_pitch ? : 1`). -/
def effPitch (p : PropDesc) : Nat := if p.val_pitch = 0 then 1 else p.val_pitch

/-- Effective maximum: an unset (zero) val_max defaults to the full bit-width
range scaled by the pitch (`GENMASK(reg_width - 1, 0) * val_pitch`). -/
def effMax (p : PropDesc) : Nat :=
  if p.val_max = 0 then genMask (p.reg_width - 1) 0 * effPitch p else p.val_max

/-- Scalar field encode used by both parse loops: clear the bit span of the
field in the target word, then OR in `(val / val_pitch) << reg_shift`. -/
def encodeScalar (p : PropDesc) (word v : Nat) : Nat :=
  clear16 word (genMask (p.reg_shift + p.reg_width - 1) p.reg_shift) |||
    ((v / effPitch p) <<< p.reg_shift)

/-- Modelled from the spec: the repository has no decode routine for a scalar
field, but the spec's round-trip property speaks of "decoding the field", so
the natural inverse is defined here following the spec's words: extract the
bit span and scale by the pitch. -/
def decodeScalar (p : PropDesc) (word : Nat) : Nat :=
  ((word >>> p.reg_shift) &&& genMask (p.reg_width - 1) 0) * effPitch p

/-- Encode used by iqs323_parse_props for a present scalar property: either
the substitution-table entry (`setup[reg_offset] |= val_subs[val]`) or the
pitch-scaled shifted value, OR-ed in after the bit span is cleared. -/
def iqs323_encode (p : PropDesc) (word v : Nat) : Nat :=
  match p.val_subs with
  | some subs =>
    clear16 word (genMask (p.reg_shift + p.reg_width - 1) p.reg_shift) ||| subs.getD v 0
  | none => encodeScalar p word v

/-- External key/value source (device-tree property lookup): presence test and
unsigned-integer read.  By convention the read of an absent key returns the
error -EINVAL, matching fwnode_property_read_u32. -/
structure KeySource where
  present : String → Bool
  readU32 : String → Except Int Nat

/-- Boolean (width-1) field handling shared by both parse loops: the field is
first forced to its inverted default, then set to the opposite value only if
the property is present. -/
def applyBoolProp (ks : KeySource) (p : PropDesc) (word : Nat) : Nat :=
  let w1 := if p.invert then word ||| bitN p.reg_shift
            else clear16 word (bitN p.reg_shift)
  if ks.present p.name then
    if p.invert then clear16 w1 (bitN p.reg_shift) else w1 ||| bitN p.reg_shift
  else w1

/-- Body of the descriptor loop of iqs7219_parse_props (lines 1109-1147) for
one descriptor whose register key matches: boolean fields are forcibly reset
and then set only if the property is present; scalar fields are skipped
unless the property is present, and otherwise read, bounds-checked against
[val_min, effMax] (-EINVAL on violation) and encoded into the register
image. -/
def iqs7219_apply_prop (ks : KeySource) (setup : List Nat) (p : PropDesc) :
    Except Int (List Nat) :=
  let word := setup.getD p.reg_offset 0
  if p.reg_width = 1 then
    .ok (setup.set p.reg_offset (applyBoolProp ks p word))
  else if ks.present p.name = false then .ok setup
  else
    match ks.readU32 p.name with
    | .error e => .error e
    | .ok v =>
      if v < p.val_min ∨ effMax p < v then .error (-errInval)
      else .ok (setup.set p.reg_offset (encodeScalar p word v))

/-- Body of the descriptor loop of iqs323_parse_props (lines 1439-1479) for
one descriptor whose group and key match.  It differs from the iqs7219 loop
in that a scalar property's absence is detected by the -EINVAL return of the
u32 read rather than a separate presence test, and in that a descriptor may
carry a substitution table. -/
def iqs323_apply_prop (ks : KeySource) (setup : List Nat) (p : PropDesc) :
    Except Int (List Nat) :=
  let word := setup.getD p.reg_offset 0
  if p.reg_width = 1 then
    .ok (setup.set p.reg_offset (applyBoolProp ks p word))
  else
    match ks.readU32 p.name with
    | .error e => if e = -errInval then .ok setup else .error e
    | .ok v =>
      if v < p.val_min ∨ effMax p < v then .error (-errInval)
      else .ok (setup.set p.reg_offset (iqs323_encode p word v))

/-- The full descriptor walk of a parse pass: fold the per-descriptor body
over the rows of the static descriptor table whose key matches. -/
def iqs7219_parse_props (ks : KeySource) (key : Nat) (setup : List Nat)
    (props : List PropDesc) : Except Int (List Nat) :=
  (props.filter (fun p => p.reg_key = key)).foldlM (iqs7219_apply_prop ks) setup

/-- Register keys of iqs7219 (enum iqs7219_reg_key_id). -/
def regKeyAti : Nat := 0

/-- Register key IQS7219_REG_KEY_SYS. -/
def regKeySys : Nat := 1

/-- Register key IQS7219_REG_KEY_PXS. -/
def regKeyPxs : Nat := 2

/-- Register key IQS7219_REG_KEY_CAP. -/
def regKeyCap : Nat := 3

/-- Register key IQS7219_REG_KEY_EVENT. -/
def regKeyEvent : Nat := 4

/-- Register key IQS7219_REG_KEY_CHAN. -/
def regKeyChan : Nat := 5

/-- The static descriptor table iqs7219_props, transcribed row by row from the
C source (fields: name, key, offset, shift, width, pitch, min, max, invert;
no row of this table sets val_pitch, val_min or invert, and none has a
substitution table). -/
def iqs7219_props : List PropDesc := [
  mkProp "azoteq,ati-frac-mult-coarse" regKeyAti 0 0 4 0 0 0 false,
  mkProp "azoteq,ati-frac-div-coarse" regKeyAti 1 0 5 0 0 0 false,
  mkProp "azoteq,ati-frac-div-fine" regKeyAti 2 0 5 0 0 0 false,
  mkProp "azoteq,ati-comp-div" regKeyAti 3 0 5 0 0 0 false,
  mkProp "azoteq,ati-comp-select" regKeyAti 4 0 10 0 0 0 false,
  mkProp "azoteq,rate-np-segment" regKeySys 0 8 2 0 0 0 false,
  mkProp "azoteq,power-mode" regKeySys 0 4 2 0 0 0 false,
  mkProp "azoteq,timeout-comms-ms" regKeySys 1 0 8 0 0 0 false,
  mkProp "azoteq,timeout-ati-ms" regKeySys 2 0 16 0 0 0 false,
  mkProp "azoteq,rate-ati-ms" regKeySys 3 0 16 0 0 0 false,
  mkProp "azoteq,timeout-np-ms" regKeySys 4 0 16 0 0 0 false,
  mkProp "azoteq,rate-np-ms" regKeySys 5 0 16 0 0 3000 false,
  mkProp "azoteq,timeout-lp-ms" regKeySys 6 0 16 0 0 0 false,
  mkProp "azoteq,rate-lp-ms" regKeySys 7 0 16 0 0 3000 false,
  mkProp "azoteq,timeout-ulp-ms" regKeySys 8 0 16 0 0 0 false,
  mkProp "azoteq,rate-ulp-ms" regKeySys 9 0 16 0 0 3000 false,
  mkProp "azoteq,channel-select" regKeyPxs 0 8 8 0 0 0 false,
  mkProp "azoteq,sense-mode" regKeyPxs 0 0 2 0 0 0 false,
  mkProp "azoteq,proj-bias" regKeyCap 0 2 2 0 0 0 false,
  mkProp "azoteq,timeout-active-ms" regKeyEvent 0 0 16 0 0 0 false,
  mkProp "azoteq,hyst" regKeyEvent 1 0 16 0 0 0 false,
  mkProp "azoteq,thresh" regKeyEvent 2 0 16 0 0 0 false,
  mkProp "azoteq,debounce-exit" regKeyEvent 3 8 8 0 0 0 false,
  mkProp "azoteq,debounce-enter" regKeyEvent 3 0 8 0 0 0 false,
  mkProp "azoteq,counts-beta-lp" regKeyChan 0 12 4 0 0 0 false,
  mkProp "azoteq,counts-beta-np" regKeyChan 0 8 4 0 0 0 false,
  mkProp "azoteq,direction-enable" regKeyChan 0 6 1 0 0 0 false,
  mkProp "azoteq,invert-enable" regKeyChan 0 1 1 0 0 0 false,
  mkProp "azoteq,dual-direction" regKeyChan 0 0 1 0 0 0 false,
  mkProp "azoteq,lta-fast-beta-lp" regKeyChan 1 12 4 0 0 0 false,
  mkProp "azoteq,lta-fast-beta-np" regKeyChan 1 8 4 0 0 0 false,
  mkProp "azoteq,lta-beta-lp" regKeyChan 1 4 4 0 0 0 false,
  mkProp "azoteq,lta-beta-np" regKeyChan 1 0 4 0 0 0 false,
  mkProp "azoteq,conv-period" regKeyChan 2 8 8 0 0 0 false,
  mkProp "azoteq,conv-frac" regKeyChan 2 0 8 0 0 0 false,
  mkProp "azoteq,conv-scale" regKeyChan 3 0 8 0 0 3 false,
  mkProp "azoteq,ati-base" regKeyChan 5 0 16 0 0 500 false,
  mkProp "azoteq,ati-target" regKeyChan 6 0 16 0 0 4000 false,
  mkProp "azoteq,ati-band" regKeyChan 7 0 16 0 0 1500 false,
  mkProp "azoteq,ati-mode" regKeyChan 8 0 3 0 0 5 false,
  mkProp "azoteq,ati-frac-div-coarse" regKeyChan 9 8 5 0 0 0 false,
  mkProp "azoteq,ati-frac-div-fine" regKeyChan 9 0 5 0 0 0 false,
  mkProp "azoteq,ati-comp-select" regKeyChan 10 0 10 0 0 0 false,
  mkProp "azoteq,thresh" regKeyChan 11 0 16 0 0 0 false,
  mkProp "azoteq,fast-filt-band" regKeyChan 12 0 8 0 0 0 false]

/-- Descriptor "azoteq,timeout-press-ms" (touch key) of the iqs323_props
table: group GEN, offset 2, shift 8, width 8, val_pitch 512.  The register
key is irrelevant to the field arithmetic and recorded as 0. -/
def iqs323_prop_timeout_press_touch : PropDesc :=
  mkProp "azoteq,timeout-press-ms" 0 2 8 8 512 0 0 false

/- ------------------------------------------------------------------ -/
/- Event decoder: iqs7219_report_sync.                                -/
/- ------------------------------------------------------------------ -/

/-- Channel count IQS7219_NUM_CHAN = 2. -/
def numChan : Nat := 2

/-- Number of per-channel proximity events (array iqs7219_pxs_events has the
three rows event-halt, event-prox and event-touch). -/
def numPxsEvents : Nat := 3

/-- One dispatched IIO event: the channel index and the threshold direction
(true = rising, false = falling). -/
structure EventRec where
  chan : Nat
  rising : Bool
  deriving DecidableEq

/-- Body of the per-event loop of iqs7219_report_sync (lines 1487-1509) for
channel i and event j: build the event mask `(event_mask[i] & BIT(j)) << i*4`,
compare the masked new flags with the masked cached flags, skip when they
agree (debounce) or when the channel's events are not enabled for output, and
otherwise dispatch with rising direction exactly when the new masked bit is
set. -/
def iqs7219_dispatch_one (eventMask : Nat) (eventEnable : Bool)
    (pxsCache pxsFlags i j : Nat) : Option EventRec :=
  let mask := (eventMask &&& bitN j) <<< (i * 4)
  let state := pxsFlags &&& mask
  let cache := pxsCache &&& mask
  if state ^^^ cache = 0 then none
  else if eventEnable then some ⟨i, state != 0⟩
  else none

/-- Loop order of the event scan: channels outermost, events innermost. -/
def eventPositions : List (Nat × Nat) :=
  (List.range numChan).flatMap fun i => (List.range numPxsEvents).map fun j => (i, j)

/-- Event decode step of iqs7219_report_sync: the list of dispatched events in
program order, paired with the new cached flags word, which the driver stores
unconditionally (`iqs7219->pxs_flags = pxs_flags`, line 1515) whether or not
any event was enabled or dispatched. -/
def iqs7219_report_events (eventMask : Nat → Nat) (eventEnable : Nat → Bool)
    (pxsCache pxsFlags : Nat) : List EventRec × Nat :=
  (eventPositions.flatMap fun p =>
    (iqs7219_dispatch_one (eventMask p.1) (eventEnable p.1) pxsCache pxsFlags p.1 p.2).toList,
   pxsFlags)

/-- Outcome of one invocation of iqs7219_report_sync, restricted to the
classification of the system-status word (lines 1438-1462): the returned
error, whether the full write/initialization sequence ran, whether the ATI
trigger state machine ran, and whether the per-channel decode was reached. -/
structure ReportOutcome where
  error : Int
  didInit : Bool
  didAti : Bool
  decoded : Bool
  deriving DecidableEq

/-- Status classification of iqs7219_report_sync: a set reset flag re-runs
iqs7219_dev_init(WRITE) and turns a successful recovery into -EAGAIN for a
synchronous caller (val non-NULL); otherwise a set ATI-error flag re-runs
iqs7219_ati_trigger the same way; otherwise a set ATI-active flag reports
-EAGAIN to a synchronous caller without recovery; only with none of the three
flags set does the function fall through to the per-channel decode.  The
results of the two recovery actions are abstracted as initRes and atiRes. -/
def iqs7219_report_classify (sysFlags : Nat) (initRes atiRes : Int)
    (hasVal : Bool) : ReportOutcome :=
  if sysFlags &&& sysStatusReset ≠ 0 then
    ⟨if hasVal ∧ initRes = 0 then -errAgain else initRes, true, false, false⟩
  else if sysFlags &&& sysStatusAtiError ≠ 0 then
    ⟨if hasVal ∧ atiRes = 0 then -errAgain else atiRes, false, true, false⟩
  else if sysFlags &&& sysStatusAtiActive ≠ 0 then
    ⟨if hasVal then -errAgain else 0, false, false, false⟩
  else ⟨0, false, false, true⟩

/-- Scan-source count IQS7219_NUM_SCAN = 6 (enum iqs7219_scan_id has entries
DELTA, FILT, RAW, LTA, VAR, PXS). -/
def numScan : Nat := 6

/-- Per-channel scan block of iqs7219_report_sync (lines 1464-1477), in enum
order delta, filt, raw, lta, var, pxs.  `valBuf` is the little-endian status
burst as 16-bit words and `pxsFlags` the second status word; the delta entry
is `max(scan[LTA] - scan[FILT], 0)` computed in signed int arithmetic. -/
def iqs7219_scan_vals (valBuf : Nat → Nat) (pxsFlags i : Nat) : List Int :=
  let filt : Int := valBuf (2 + i * 2)
  let lta : Int := valBuf (3 + i * 2)
  [max (lta - filt) 0,
   filt,
   valBuf (10 + i),
   lta,
   (valBuf (7 + i * 2)) <<< 16 ||| valBuf (6 + i * 2),
   (pxsFlags >>> (i * 4)) &&& genMask 3 0]

/-- Delta entry by itself: `max(scan[IQS7219_SCAN_LTA] -
scan[IQS7219_SCAN_FILT], 0)` (lines 1474-1475). -/
def iqs7219_scan_delta (lta filt : Int) : Int := max (lta - filt) 0

/- ------------------------------------------------------------------ -/
/- Scan multiplexer: iqs7219_scan_mux_set and the report-path access. -/
/- ------------------------------------------------------------------ -/

/-- Bounds check and store of iqs7219_scan_mux_set (lines 1798-1814): a
selector strictly greater than IQS7219_NUM_SCAN is rejected with -EINVAL and
anything else is stored in scan_mux.  The check in iqs7219_parse_chan (lines
1327-1333) is identical. -/
def iqs7219_scan_mux_set (scanMux : Nat) : Except Int Nat :=
  if numScan < scanMux then .error (-errInval) else .ok scanMux

/-- Report-path access `scan[iqs7219->scan_mux[i]]` (line 1479): the stored
selector indexes the six-element per-channel scan array; an index past the
end of the list models the out-of-bounds stack read of the C array. -/
def iqs7219_scan_data (valBuf : Nat → Nat) (pxsFlags i scanMux : Nat) : Option Int :=
  (iqs7219_scan_vals valBuf pxsFlags i).get? scanMux

/- ------------------------------------------------------------------ -/
/- Power state controller: iqs323_runtime_pm / iqs323_suspend /
   iqs323_resume.                                                     -/
/- ------------------------------------------------------------------ -/

/-- Power mode IQS323_POWER_MODE_HALT (enum iqs323_power_mode_id, value 3). -/
def iqs323PowerModeHalt : Nat := 3

/-- Power mode IQS323_POWER_MODE_USER (enum iqs323_power_mode_id, value 6). -/
def iqs323PowerModeUser : Nat := 6

/-- Environment stub for iqs323_runtime_pm: the result of the mode write, the
identity read, the hard reset and the re-initialization on each iteration of
the recovery loop. -/
structure PmEnv where
  writeMode : Nat → Int
  readProd : Nat → Except Int Nat
  hardReset : Nat → Int
  devInit : Nat → Int

/-- Observable result of iqs323_runtime_pm: the return code and how many mode
writes, identity reads, hard resets and re-initializations were executed. -/
structure PmRun where
  result : Int
  modeWrites : Nat
  prodReads : Nat
  resets : Nat
  inits : Nat
  deriving DecidableEq

/-- Recovery loop of iqs323_runtime_pm (lines 2143-2162): each iteration
writes the requested power mode and, when the requested mode is
IQS323_POWER_MODE_USER (or the write failed), breaks immediately; otherwise
it sleeps, re-reads the product-number register, breaks when the read failed
or matched, and on a mismatch performs a hard reset followed by
iqs323_dev_init(WRITE) before the next iteration.  Exhausting the loop
(`i == IQS323_NUM_RETRIES`) yields -EIO. -/
def iqs323_pm_loop (env : PmEnv) (prodNum : Nat) (userMode : Bool) (i : Nat) :
    Nat → PmRun
  | 0 => ⟨-errIoErr, 0, 0, 0, 0⟩
  | fuel + 1 =>
    let e1 := env.writeMode i
    if e1 ≠ 0 ∨ userMode then ⟨e1, 1, 0, 0, 0⟩
    else
      match env.readProd i with
      | .error e2 => ⟨e2, 1, 1, 0, 0⟩
      | .ok v =>
        if v = prodNum then ⟨0, 1, 1, 0, 0⟩
        else
          let e3 := env.hardReset i
          if e3 ≠ 0 then ⟨e3, 1, 1, 1, 0⟩
          else
            let e4 := env.devInit i
            if e4 ≠ 0 then ⟨e4, 1, 1, 1, 1⟩
            else
              let r := iqs323_pm_loop env prodNum userMode (i + 1) fuel
              ⟨r.result, r.modeWrites + 1, r.prodReads + 1, r.resets + 1, r.inits + 1⟩

/-- iqs323_runtime_pm for a device not configured as a wakeup source: run the
recovery loop with IQS323_NUM_RETRIES iterations.  iqs323_suspend passes
IQS323_POWER_MODE_HALT and iqs323_resume passes IQS323_POWER_MODE_USER. -/
def iqs323_runtime_pm (env : PmEnv) (prodNum powerMode : Nat) : PmRun :=
  iqs323_pm_loop env prodNum (powerMode = iqs323PowerModeUser) 0 numRetries

/-- iqs323_resume: runtime PM with IQS323_POWER_MODE_USER. -/
def iqs323_resume (env : PmEnv) (prodNum : Nat) : PmRun :=
  iqs323_runtime_pm env prodNum iqs323PowerModeUser

/-- iqs323_suspend: runtime PM with IQS323_POWER_MODE_HALT. -/
def iqs323_suspend (env : PmEnv) (prodNum : Nat) : PmRun :=
  iqs323_runtime_pm env prodNum iqs323PowerModeHalt

/- ------------------------------------------------------------------ -/
/- Concrete stubs used by the witness theorems.                       -/
/- ------------------------------------------------------------------ -/

/-- Status stub whose first two reads show ATI active and whose third shows
neither active nor error. -/
def atiStubOk : Nat → Nat := fun k => if k < 2 then sysStatusAtiActive else 0

/-- Status stub all of whose reads show the ATI-error bit. -/
def atiStubErr : Nat → Nat := fun _ => sysStatusAtiError

/-- Status stub for the iqs323 variant all of whose reads show its ATI-error
bit. -/
def atiStub323Err : Nat → Nat := fun _ => iqs323SysStatusAtiError

/-- Status stub for the iqs323 variant whose reads show neither reset nor
ATI error nor ATI active. -/
def atiStub323Ok : Nat → Nat := fun _ => 0

/- ------------------------------------------------------------------ -/
/- Theorems.                                                          -/
/- ------------------------------------------------------------------ -/

/-- C1 counterexample: the claim quantifies over every ATI trigger
invocation and cites iqs323_ati_trigger among its sources, but that variant
ends five consecutive ATI-error attempts with -EIO rather than -ETIMEDOUT,
and a successful attempt ends with only the single per-attempt mode write —
no restoring system-setup write follows. -/
theorem claim_C1_counterexample :
    (iqs323_ati_trigger atiStub323Err).1 = -errIoErr ∧
    (-errIoErr : Int) ≠ -errTimedOut ∧
    iqs323_ati_trigger atiStub323Ok = (0, 1) := by
  decide

/-- C1 (amended): every iqs7219 ATI trigger invocation behaves as the claim
states — it writes the redo-ATI command bit and then repeatedly polls the
ready line and reads the status register until the ATI-active bit clears; a
status sequence reading active, active, then neither active nor error ends
in success with the configured communication mode restored by a final write
of the system-setup register, and five consecutive attempts whose status
reads show the ATI-error bit end in terminal failure with -ETIMEDOUT.  The
iqs323 variant differs exactly as its code shows: five consecutive
ATI-error attempts end in terminal failure with -EIO after five mode
writes, and a first status read showing neither reset nor error nor active
ends in success after the one per-attempt mode write, with no restoring
system-setup write. -/
theorem claim_C1 :
    (∀ (st : Nat → Nat) (fuel ss im : Nat),
      3 ≤ fuel →
      st 0 &&& sysStatusAtiActive ≠ 0 →
      st 1 &&& sysStatusAtiActive ≠ 0 →
      st 2 &&& sysStatusAtiActive = 0 →
      st 2 &&& sysStatusAtiError = 0 →
      iqs7219_ati_trigger st ss im fuel =
        ⟨0, [atiRedoWrite (ss &&& (mask16 ^^^ sysSetupIntfModeMask)),
             (ss &&& (mask16 ^^^ sysSetupIntfModeMask)) ||| im]⟩) ∧
    (∀ (st : Nat → Nat) (fuel ss im : Nat),
      1 ≤ fuel →
      (∀ k, k < numRetries →
        st k &&& sysStatusAtiActive = 0 ∧ st k &&& sysStatusAtiError ≠ 0) →
      (iqs7219_ati_trigger st ss im fuel).result = -errTimedOut) ∧
    (∀ (st : Nat → Nat),
      (∀ k, k < numRetries →
        st k &&& iqs323SysStatusReset = 0 ∧
          st k &&& iqs323SysStatusAtiError ≠ 0) →
      iqs323_ati_trigger st = (-errIoErr, numRetries)) ∧
    (∀ (st : Nat → Nat),
      st 0 &&& iqs323SysStatusReset = 0 →
      st 0 &&& iqs323SysStatusAtiError = 0 →
      st 0 &&& iqs323SysStatusAtiActive = 0 →
      iqs323_ati_trigger st = (0, 1)) := by
  refine ⟨?_, ?_, ?_, ?_⟩
  · intro st fuel ss im hf h0 h1 h2 h2e
    obtain ⟨f, rfl⟩ : ∃ f, fuel = f + 3 := ⟨fuel - 3, by omega⟩
    have hw : atiWait st 0 (f + 3) = .succeeded 3 := by
      show atiWait st 0 (f + 2 + 1) = _
      rw [atiWait, if_pos h0]
      show atiWait st 1 (f + 1 + 1) = _
      rw [atiWait, if_pos h1]
      show atiWait st 2 (f + 0 + 1) = _
      rw [atiWait, if_neg (by simp [h2]), if_neg (by simp [h2e])]
    show atiLoop st (ss &&& (mask16 ^^^ sysSetupIntfModeMask)) im (f + 3) 0 (4 + 1) = _
    rw [atiLoop, hw]
  · intro st fuel ss im hf hk
    obtain ⟨f, rfl⟩ : ∃ f, fuel = f + 1 := ⟨fuel - 1, by omega⟩
    have hw : ∀ k, k < 5 → atiWait st k (f + 1) = .errored (k + 1) := by
      intro k hk5
      obtain ⟨ha, he⟩ := hk k (by simpa [numRetries] using hk5)
      rw [atiWait, if_neg (by simp [ha]), if_pos he]
    show (atiLoop st (ss &&& (mask16 ^^^ sysSetupIntfModeMask)) im (f + 1) 0 (4 + 1)).result = _
    rw [atiLoop, hw 0 (by norm_num)]
    show (atiLoop st _ im (f + 1) 1 (3 + 1)).result = _
    rw [atiLoop, hw 1 (by norm_num)]
    show (atiLoop st _ im (f + 1) 2 (2 + 1)).result = _
    rw [atiLoop, hw 2 (by norm_num)]
    show (atiLoop st _ im (f + 1) 3 (1 + 1)).result = _
    rw [atiLoop, hw 3 (by norm_num)]
    show (atiLoop st _ im (f + 1) 4 (0 + 1)).result = _
    rw [atiLoop, hw 4 (by norm_num)]
    rfl
  · intro st hk
    have step : ∀ (e : Int) (k fuel : Nat), k < 5 →
        iqs323_ati_loop st e k (fuel + 1) =
          ((iqs323_ati_loop st (-errIoErr) (k + 1) fuel).1,
           (iqs323_ati_loop st (-errIoErr) (k + 1) fuel).2 + 1) := by
      intro e k fuel hk5
      obtain ⟨hr, he⟩ := hk k (by simpa [numRetries] using hk5)
      rw [iqs323_ati_loop, if_neg (by simp [hr]), if_pos he]
    show iqs323_ati_loop st 0 0 (4 + 1) = _
    rw [step 0 0 4 (by norm_num)]
    rw [show (4 : Nat) = 3 + 1 from rfl, step (-errIoErr) 1 3 (by norm_num)]
    rw [show (3 : Nat) = 2 + 1 from rfl, step (-errIoErr) 2 2 (by norm_num)]
    rw [show (2 : Nat) = 1 + 1 from rfl, step (-errIoErr) 3 1 (by norm_num)]
    rw [show (1 : Nat) = 0 + 1 from rfl, step (-errIoErr) 4 0 (by norm_num)]
    rfl
  · intro st h1 h2 h3
    show iqs323_ati_loop st 0 0 (4 + 1) = _
    rw [iqs323_ati_loop, if_neg (by simp [h1]), if_neg (by simp [h2]),
      if_neg (by simp [h3])]

/-- C1 witness: the theorem applied to concrete status stubs for both
variants. -/
theorem claim_C1_witness :
    iqs7219_ati_trigger atiStubOk 0 0 3 = ⟨0, [sysSetupRedoAti, 0]⟩ ∧
    (iqs7219_ati_trigger atiStubErr 0 0 3).result = -errTimedOut ∧
    iqs323_ati_trigger atiStub323Err = (-errIoErr, numRetries) ∧
    iqs323_ati_trigger atiStub323Ok = (0, 1) := by
  refine ⟨?_, ?_, ?_, ?_⟩
  · rw [claim_C1.1 atiStubOk 3 0 0 (by norm_num) (by decide) (by decide)
      (by decide) (by decide)]
    decide
  · exact claim_C1.2.1 atiStubErr 3 0 0 (by norm_num) (by decide)
  · exact claim_C1.2.2.1 atiStub323Err (fun k _ =>
      ⟨show iqs323SysStatusAtiError &&& iqs323SysStatusReset = 0 by decide,
       show iqs323SysStatusAtiError &&& iqs323SysStatusAtiError ≠ 0 by decide⟩)
  · exact claim_C1.2.2.2 atiStub323Ok
      (show (0 : Nat) &&& iqs323SysStatusReset = 0 by decide)
      (show (0 : Nat) &&& iqs323SysStatusAtiError = 0 by decide)
      (show (0 : Nat) &&& iqs323SysStatusAtiActive = 0 by decide)

/-- Helper: the attempt of a truly successful step is recognized by
BurstStep.ok. -/
theorem burstStep_ok_data (ws : List Nat) :
    (BurstStep.data ws).ok = true ↔ ws.headD 0 ≠ commsError := by
  simp [BurstStep.ok]

/-- Helper: the retry loop runs at most as many attempts as it has iterations
left. -/
theorem readBurstFrom_attempts_le (stub : Nat → BurstStep) :
    ∀ (n i : Nat) (ret : Int), (readBurstFrom stub ret i n).attempts ≤ n := by
  intro n
  induction n with
  | zero => intro i ret; simp [readBurstFrom]
  | succ n ih =>
    intro i ret
    cases h : stub i with
    | commsErr e =>
      have := ih (i + 1) e
      simp only [readBurstFrom, h]
      omega
    | xferErr =>
      have := ih (i + 1) (-errIoErr)
      simp only [readBurstFrom, h]
      omega
    | data ws =>
      by_cases hs : ws.headD 0 = commsError
      · have := ih (i + 1) (-errNoData)
        simp only [readBurstFrom, h, if_pos hs]
        omega
      · simp only [readBurstFrom, h, if_neg hs]
        omega

/-- Helper: index shift for the existence of a successful later attempt. -/
theorem burst_shift (P : Nat → Prop) (n i : Nat) :
    (∃ j, j < n ∧ P (i + 1 + j)) ↔ ∃ j, 1 ≤ j ∧ j < n + 1 ∧ P (i + j) := by
  constructor
  · rintro ⟨j, hj, hp⟩
    refine ⟨j + 1, by omega, by omega, ?_⟩
    have e : i + (j + 1) = i + 1 + j := by omega
    rw [e]
    exact hp
  · rintro ⟨j, h1, hj, hp⟩
    refine ⟨j - 1, by omega, ?_⟩
    have e : i + 1 + (j - 1) = i + j := by omega
    rw [e]
    exact hp

/-- Helper: the loop's final code is zero exactly when some remaining attempt
truly succeeds, provided the incoming code is negative or at least one
iteration remains. -/
theorem readBurstFrom_ret_iff (stub : Nat → BurstStep)
    (hneg : ∀ i e, stub i = .commsErr e → e < 0) :
    ∀ (n i : Nat) (ret : Int), ret < 0 ∨ 1 ≤ n →
      ((readBurstFrom stub ret i n).ret = 0 ↔
        ∃ j, j < n ∧ (stub (i + j)).ok = true) := by
  intro n
  induction n with
  | zero =>
    intro i ret h
    rcases h with h | h
    · constructor
      · intro h0
        simp only [readBurstFrom] at h0
        omega
      · rintro ⟨j, hj, -⟩
        omega
    · omega
  | succ n ih =>
    intro i ret _
    have tail : ∀ (e : Int), e < 0 →
        ((readBurstFrom stub e (i + 1) n).ret = 0 ↔
          ∃ j, 1 ≤ j ∧ j < n + 1 ∧ (stub (i + j)).ok = true) := by
      intro e he
      rw [ih (i + 1) e (Or.inl he)]
      exact burst_shift (fun m => (stub m).ok = true) n i
    have headFalse : ∀ (hok : (stub i).ok = false) (e : Int), e < 0 →
        ((readBurstFrom stub e (i + 1) n).ret = 0 ↔
          ∃ j, j < n + 1 ∧ (stub (i + j)).ok = true) := by
      intro hok e he
      rw [tail e he]
      constructor
      · rintro ⟨j, h1, hj, hp⟩
        exact ⟨j, hj, hp⟩
      · rintro ⟨j, hj, hp⟩
        rcases Nat.eq_zero_or_pos j with rfl | hpos
        · rw [Nat.add_zero] at hp
          rw [hok] at hp
          cases hp
        · exact ⟨j, hpos, hj, hp⟩
    cases h : stub i with
    | commsErr e =>
      have hok : (stub i).ok = false := by rw [h]; rfl
      simp only [readBurstFrom, h]
      exact headFalse hok e (hneg i e h)
    | xferErr =>
      have hok : (stub i).ok = false := by rw [h]; rfl
      simp only [readBurstFrom, h]
      exact headFalse hok (-errIoErr) (by norm_num [errIoErr])
    | data ws =>
      by_cases hs : ws.headD 0 = commsError
      · have hok : (stub i).ok = false := by
          rw [h]
          simpa [BurstStep.ok] using hs
        simp only [readBurstFrom, h, if_pos hs]
        exact headFalse hok (-errNoData) (by norm_num [errNoData])
      · simp only [readBurstFrom, h, if_neg hs]
        constructor
        · intro _
          refine ⟨0, by omega, ?_⟩
          rw [Nat.add_zero, h]
          simpa [BurstStep.ok] using hs
        · intro _
          trivial

/-- Helper: when every remaining attempt fails, the loop ends with a negative
code after running all remaining iterations. -/
theorem readBurstFrom_fail (stub : Nat → BurstStep)
    (hneg : ∀ i e, stub i = .commsErr e → e < 0) :
    ∀ (n i : Nat) (ret : Int), ret < 0 ∨ 1 ≤ n →
      (∀ j, j < n → (stub (i + j)).ok = false) →
      (readBurstFrom stub ret i n).ret < 0 ∧
        (readBurstFrom stub ret i n).attempts = n := by
  intro n
  induction n with
  | zero =>
    intro i ret h _
    rcases h with h | h
    · exact ⟨h, rfl⟩
    · omega
  | succ n ih =>
    intro i ret _ hfail
    have hnext : ∀ j, j < n → (stub (i + 1 + j)).ok = false := by
      intro j hj
      have e : i + 1 + j = i + (j + 1) := by omega
      rw [e]
      exact hfail (j + 1) (by omega)
    cases h : stub i with
    | commsErr e =>
      have := ih (i + 1) e (Or.inl (hneg i e h)) hnext
      simp only [readBurstFrom, h]
      exact ⟨this.1, by omega⟩
    | xferErr =>
      have := ih (i + 1) (-errIoErr) (Or.inl (by norm_num [errIoErr])) hnext
      simp only [readBurstFrom, h]
      exact ⟨this.1, by omega⟩
    | data ws =>
      by_cases hs : ws.headD 0 = commsError
      · have := ih (i + 1) (-errNoData) (Or.inl (by norm_num [errNoData])) hnext
        simp only [readBurstFrom, h, if_pos hs]
        exact ⟨this.1, by omega⟩
      · exfalso
        have hj := hfail 0 (by omega)
        rw [Nat.add_zero, h] at hj
        have hj2 : ws.headD 0 = commsError := by simpa [BurstStep.ok] using hj
        exact hs hj2

/-- Helper: data handed back by the loop never has the sentinel as its first
word. -/
theorem readBurstFrom_data (stub : Nat → BurstStep) :
    ∀ (n i : Nat) (ret : Int) (ws : List Nat),
      (readBurstFrom stub ret i n).data = some ws → ws.headD 0 ≠ commsError := by
  intro n
  induction n with
  | zero =>
    intro i ret ws h
    simp [readBurstFrom] at h
  | succ n ih =>
    intro i ret ws h
    cases hstep : stub i with
    | commsErr e =>
      simp only [readBurstFrom, hstep] at h
      exact ih (i + 1) e ws h
    | xferErr =>
      simp only [readBurstFrom, hstep] at h
      exact ih (i + 1) (-errIoErr) ws h
    | data ws' =>
      by_cases hs : ws'.headD 0 = commsError
      · simp only [readBurstFrom, hstep, if_pos hs] at h
        exact ih (i + 1) (-errNoData) ws h
      · simp only [readBurstFrom, hstep, if_neg hs] at h
        cases h
        exact hs

/-- C2: every burst read performs at most five attempts, each consisting of
forced communication followed by one bus transaction; an attempt whose first
returned word is the sentinel 0xEEEE counts as failed and is retried rather
than returned as data; the operation succeeds exactly when one of the five
attempts truly succeeds (in particular when only the fifth does) and returns
a negative error after five failed attempts. -/
theorem claim_C2 (stub : Nat → BurstStep)
    (hneg : ∀ i e, stub i = .commsErr e → e < 0) :
    (iqs7219_read_burst stub).attempts ≤ numRetries ∧
    ((iqs7219_read_burst stub).ret = 0 ↔
      ∃ j, j < numRetries ∧ (stub j).ok = true) ∧
    ((∀ j, j < numRetries → (stub j).ok = false) →
      (iqs7219_read_burst stub).ret < 0 ∧
        (iqs7219_read_burst stub).attempts = numRetries) ∧
    (∀ ws, (iqs7219_read_burst stub).data = some ws →
      ws.headD 0 ≠ commsError) := by
  refine ⟨readBurstFrom_attempts_le stub numRetries 0 0, ?_, ?_, ?_⟩
  · have := readBurstFrom_ret_iff stub hneg numRetries 0 0
      (Or.inr (by norm_num [numRetries]))
    simpa [iqs7219_read_burst] using this
  · intro hfail
    have := readBurstFrom_fail stub hneg numRetries 0 0
      (Or.inr (by norm_num [numRetries])) (by simpa using hfail)
    simpa [iqs7219_read_burst] using this
  · intro ws h
    exact readBurstFrom_data stub numRetries 0 0 ws h

/-- Transport stub whose first four attempts fail at the bus level and whose
fifth succeeds. -/
def burstStubFifth : Nat → BurstStep := fun i => if i < 4 then .xferErr else .data [7]

/-- Transport stub all of whose attempts fail at the bus level. -/
def burstStubFail : Nat → BurstStep := fun _ => .xferErr

/-- Transport stub all of whose attempts return the sentinel 0xEEEE. -/
def burstStubSentinel : Nat → BurstStep := fun _ => .data [0xEEEE]

/-- C2 witness: applying the theorem to the three concrete transport stubs. -/
theorem claim_C2_witness :
    (iqs7219_read_burst burstStubFifth).ret = 0 ∧
    ((iqs7219_read_burst burstStubFail).ret < 0 ∧
      (iqs7219_read_burst burstStubFail).attempts = numRetries) ∧
    (iqs7219_read_burst burstStubSentinel).ret < 0 := by
  have hneg1 : ∀ i e, burstStubFifth i = .commsErr e → e < 0 := by
    intro i e h
    by_cases hi : i < 4 <;> simp [burstStubFifth, hi] at h
  have hneg2 : ∀ i e, burstStubFail i = .commsErr e → e < 0 := by
    intro i e h; simp [burstStubFail] at h
  have hneg3 : ∀ i e, burstStubSentinel i = .commsErr e → e < 0 := by
    intro i e h; simp [burstStubSentinel] at h
  refine ⟨?_, ?_, ?_⟩
  · exact (claim_C2 burstStubFifth hneg1).2.1.mpr ⟨4, by norm_num [numRetries], by decide⟩
  · exact (claim_C2 burstStubFail hneg2).2.2.1 (fun j _ => rfl)
  · exact ((claim_C2 burstStubSentinel hneg3).2.2.1 (fun j _ => rfl)).1

/-- Helper: BIT(n) as a power of two. -/
theorem bitN_eq (n : Nat) : bitN n = 2 ^ n := by
  rw [bitN, Nat.shiftLeft_eq, one_mul]

/-- Helper: BIT(j) shifted into channel i's nibble is the single bit
j + i*4. -/
theorem dispatch_mask_eq (em i j : Nat) :
    (em &&& bitN j) <<< (i * 4) =
      if em.testBit j = true then 2 ^ (j + i * 4) else 0 := by
  by_cases hb : em.testBit j = true
  · rw [if_pos hb, bitN_eq, Nat.and_two_pow, hb,
      Bool.toNat_true, one_mul, Nat.shiftLeft_eq, ← pow_add]
  · have hb' : em.testBit j = false := by simpa using hb
    rw [if_neg hb, bitN_eq, Nat.and_two_pow, hb',
      Bool.toNat_false, zero_mul, Nat.zero_shiftLeft]

/-- Helper: closed characterization of the per-event dispatch decision — an
event is dispatched exactly when it is configured in the channel's event
mask, its masked flag bit changed since the cached read, and the channel's
events are enabled for output; its direction is the new value of the bit. -/
theorem dispatch_one_eq (em : Nat) (en : Bool) (cache flags i j : Nat) :
    iqs7219_dispatch_one em en cache flags i j =
      if em.testBit j = true ∧ (flags ^^^ cache).testBit (j + i * 4) = true ∧ en = true
      then some ⟨i, flags.testBit (j + i * 4)⟩ else none := by
  simp only [iqs7219_dispatch_one]
  rw [dispatch_mask_eq]
  by_cases hb : em.testBit j = true
  · rw [if_pos hb]
    rw [← Nat.and_xor_distrib_right]
    by_cases hx : (flags ^^^ cache).testBit (j + i * 4) = true
    · have hnz : ¬((flags ^^^ cache) &&& 2 ^ (j + i * 4) = 0) := by
        rw [Nat.and_two_pow, hx, Bool.toNat_true, one_mul]
        positivity
      rw [if_neg hnz]
      cases en with
      | false => simp [hb, hx]
      | true =>
        rw [if_pos rfl, if_pos ⟨hb, hx, rfl⟩]
        have hbit : (flags &&& 2 ^ (j + i * 4) != 0) = flags.testBit (j + i * 4) := by
          rw [Nat.and_two_pow]
          cases hf : flags.testBit (j + i * 4) <;> simp [hf]
        rw [hbit]
    · have hx' : (flags ^^^ cache).testBit (j + i * 4) = false := by simpa using hx
      have hz : (flags ^^^ cache) &&& 2 ^ (j + i * 4) = 0 := by
        rw [Nat.and_two_pow, hx', Bool.toNat_false, zero_mul]
      rw [if_pos hz, if_neg]
      rintro ⟨-, h2, -⟩
      exact hx h2
  · rw [if_neg hb]
    have hz : flags &&& 0 ^^^ cache &&& 0 = 0 := by simp
    rw [if_pos hz, if_neg (fun hc => hb hc.1)]

/-- Helper: the loop order of the 2-by-3 event scan, evaluated. -/
theorem eventPositions_eq :
    eventPositions = [(0, 0), (0, 1), (0, 2), (1, 0), (1, 1), (1, 2)] := by
  rfl

/-- C3: consecutive status reads with identical event flag bits dispatch zero
events; a read in which exactly one configured-and-enabled event's masked bit
differs from the cached flags dispatches exactly one event, rising when the
new bit is set and falling otherwise; and the cached flags are updated to the
new value unconditionally, also for events that are not enabled for output. -/
theorem claim_C3 :
    (∀ (em : Nat → Nat) (en : Nat → Bool) (flags : Nat),
      iqs7219_report_events em en flags flags = ([], flags)) ∧
    (∀ (em : Nat → Nat) (en : Nat → Bool) (cache flags : Nat)
      (i : Fin numChan) (j : Fin numPxsEvents),
      (em i.1).testBit j.1 = true →
      (flags ^^^ cache).testBit (j.1 + i.1 * 4) = true →
      en i.1 = true →
      (∀ (i' : Fin numChan) (j' : Fin numPxsEvents), (i', j') ≠ (i, j) →
        ¬((em i'.1).testBit j'.1 = true ∧
          (flags ^^^ cache).testBit (j'.1 + i'.1 * 4) = true ∧ en i'.1 = true)) →
      (iqs7219_report_events em en cache flags).1 =
        [⟨i.1, flags.testBit (j.1 + i.1 * 4)⟩]) ∧
    (∀ (em : Nat → Nat) (en : Nat → Bool) (cache flags : Nat),
      (iqs7219_report_events em en cache flags).2 = flags) := by
  refine ⟨?_, ?_, ?_⟩
  · intro em en flags
    simp [iqs7219_report_events, eventPositions_eq, dispatch_one_eq, Nat.xor_self]
  · intro em en cache flags i j h1 h2 h3 hu
    obtain ⟨iv, hi⟩ := i
    obtain ⟨jv, hj⟩ := j
    simp only [Fin.val_mk] at h1 h2 h3 ⊢
    have hiv : iv < 2 := hi
    have hjv : jv < 3 := hj
    have hu' : ∀ i' j', (hi' : i' < 2) → (hj' : j' < 3) →
        (i', j') ≠ (iv, jv) →
        ¬((em i').testBit j' = true ∧
          (flags ^^^ cache).testBit (j' + i' * 4) = true ∧ en i' = true) := by
      intro i' j' hi' hj' hne
      have := hu ⟨i', hi'⟩ ⟨j', hj'⟩ (by
        intro hEq
        rw [Prod.mk.injEq, Fin.mk.injEq, Fin.mk.injEq] at hEq
        exact hne (by rw [Prod.mk.injEq]; exact hEq))
      simpa using this
    simp only [iqs7219_report_events, eventPositions_eq, List.flatMap_cons,
      List.flatMap_nil, dispatch_one_eq]
    interval_cases iv <;> interval_cases jv
    · rw [if_pos ⟨h1, h2, h3⟩,
        if_neg (hu' 0 1 (by omega) (by omega) (by decide)),
        if_neg (hu' 0 2 (by omega) (by omega) (by decide)),
        if_neg (hu' 1 0 (by omega) (by omega) (by decide)),
        if_neg (hu' 1 1 (by omega) (by omega) (by decide)),
        if_neg (hu' 1 2 (by omega) (by omega) (by decide))]
      simp
    · rw [if_neg (hu' 0 0 (by omega) (by omega) (by decide)),
        if_pos ⟨h1, h2, h3⟩,
        if_neg (hu' 0 2 (by omega) (by omega) (by decide)),
        if_neg (hu' 1 0 (by omega) (by omega) (by decide)),
        if_neg (hu' 1 1 (by omega) (by omega) (by decide)),
        if_neg (hu' 1 2 (by omega) (by omega) (by decide))]
      simp
    · rw [if_neg (hu' 0 0 (by omega) (by omega) (by decide)),
        if_neg (hu' 0 1 (by omega) (by omega) (by decide)),
        if_pos ⟨h1, h2, h3⟩,
        if_neg (hu' 1 0 (by omega) (by omega) (by decide)),
        if_neg (hu' 1 1 (by omega) (by omega) (by decide)),
        if_neg (hu' 1 2 (by omega) (by omega) (by decide))]
      simp
    · rw [if_neg (hu' 0 0 (by omega) (by omega) (by decide)),
        if_neg (hu' 0 1 (by omega) (by omega) (by decide)),
        if_neg (hu' 0 2 (by omega) (by omega) (by decide)),
        if_pos ⟨h1, h2, h3⟩,
        if_neg (hu' 1 1 (by omega) (by omega) (by decide)),
        if_neg (hu' 1 2 (by omega) (by omega) (by decide))]
      simp
    · rw [if_neg (hu' 0 0 (by omega) (by omega) (by decide)),
        if_neg (hu' 0 1 (by omega) (by omega) (by decide)),
        if_neg (hu' 0 2 (by omega) (by omega) (by decide)),
        if_neg (hu' 1 0 (by omega) (by omega) (by decide)),
        if_pos ⟨h1, h2, h3⟩,
        if_neg (hu' 1 2 (by omega) (by omega) (by decide))]
      simp
    · rw [if_neg (hu' 0 0 (by omega) (by omega) (by decide)),
        if_neg (hu' 0 1 (by omega) (by omega) (by decide)),
        if_neg (hu' 0 2 (by omega) (by omega) (by decide)),
        if_neg (hu' 1 0 (by omega) (by omega) (by decide)),
        if_neg (hu' 1 1 (by omega) (by omega) (by decide)),
        if_pos ⟨h1, h2, h3⟩]
      simp
  · intro em en cache flags
    rfl

/-- Event-mask stub for the C3 witness: all three events configured on every
channel. -/
def emStub : Nat → Nat := fun _ => 7

/-- Enable stub for the C3 witness: every channel enabled for output. -/
def enStub : Nat → Bool := fun _ => true

/-- C3 witness: the theorem applied to concrete masks and flag words — cached
flags 0 and new flags 1 dispatch exactly one rising event on channel 0, and
identical consecutive flag words dispatch nothing while still updating the
cache. -/
theorem claim_C3_witness :
    (iqs7219_report_events emStub enStub 0 1).1 = [⟨0, true⟩] ∧
    iqs7219_report_events emStub enStub 5 5 = ([], 5) := by
  constructor
  · have h := claim_C3.2.1 emStub enStub 0 1 ⟨0, by decide⟩ ⟨0, by decide⟩
      (by decide) (by decide) (by decide) (by decide)
    rw [h]
    decide
  · exact claim_C3.1 emStub enStub 5

/-- Helper: getD after set at the written index. -/
theorem getD_set_self (l : List Nat) (i a : Nat) (h : i < l.length) :
    (l.set i a).getD i 0 = a := by
  simp [List.getD, List.getElem?_set_self h]

/-- Helper: getD after set at a different index. -/
theorem getD_set_ne (l : List Nat) (i o a : Nat) (h : o ≠ i) :
    (l.set i a).getD o 0 = l.getD o 0 := by
  simp [List.getD, List.getElem?_set_ne (Ne.symm h)]

/-- Helper: bits of the 16-bit register mask. -/
theorem testBit_mask16 (b : Nat) : mask16.testBit b = decide (b < 16) := by
  rw [mask16]
  exact Nat.testBit_two_pow_sub_one 16 b

/-- Helper: bits of GENMASK(h, l). -/
theorem testBit_genMask (h l b : Nat) :
    (genMask h l).testBit b = (decide (l ≤ b) && decide (b < h + 1)) := by
  rw [genMask, Nat.testBit_shiftLeft, Nat.testBit_two_pow_sub_one]
  rcases Nat.lt_or_ge b l with hbl | hbl
  · have h1 : ¬(b ≥ l) := by omega
    simp [h1, hbl]
  · have h1 : b ≥ l := hbl
    have h2 : l ≤ b := hbl
    simp only [h1, h2, decide_eq_true_eq, ge_iff_le, decide_True, Bool.true_and]
    rw [decide_eq_decide]
    omega

/-- Helper: bits of a 16-bit word after the C idiom `w &= ~m`. -/
theorem testBit_clear16 (w m b : Nat) (hw : w < 2 ^ 16) :
    (clear16 w m).testBit b = (w.testBit b && !(m.testBit b)) := by
  rw [clear16, Nat.testBit_and, Nat.testBit_xor, testBit_mask16]
  by_cases hb : b < 16
  · simp [hb]
  · have hwb : w.testBit b = false := by
      refine Nat.testBit_eq_false_of_lt (lt_of_lt_of_le hw ?_)
      exact Nat.pow_le_pow_right (by norm_num) (by omega)
    simp [hwb]

/-- Helper: bit behaviour of the shared boolean-field pass — the target bit
ends as the inverted default when the key is absent and as its opposite when
present, and every other bit of the word is untouched. -/
theorem applyBoolProp_testBit (ks : KeySource) (p : PropDesc) (word : Nat)
    (hs : p.reg_shift < 16) (hw : word < 2 ^ 16) :
    ((applyBoolProp ks p word).testBit p.reg_shift =
      (if ks.present p.name then !p.invert else p.invert)) ∧
    (∀ b, b ≠ p.reg_shift → (applyBoolProp ks p word).testBit b = word.testBit b) := by
  have hw1 : word ||| 2 ^ p.reg_shift < 2 ^ 16 :=
    Nat.or_lt_two_pow hw (Nat.pow_lt_pow_right (by norm_num) hs)
  cases hpres : ks.present p.name with
  | false =>
    cases hinv : p.invert with
    | false =>
      constructor
      · rw [applyBoolProp, hinv, hpres]
        simp only [Bool.false_eq_true, if_false, bitN_eq]
        rw [testBit_clear16 word _ _ hw, Nat.testBit_two_pow_self]
        simp
      · intro b hb
        rw [applyBoolProp, hinv, hpres]
        simp only [Bool.false_eq_true, if_false, bitN_eq]
        rw [testBit_clear16 word _ _ hw, Nat.testBit_two_pow_of_ne (Ne.symm hb)]
        simp
    | true =>
      constructor
      · rw [applyBoolProp, hinv, hpres]
        simp only [if_true, Bool.false_eq_true, if_false, bitN_eq]
        rw [Nat.testBit_or, Nat.testBit_two_pow_self]
        simp
      · intro b hb
        rw [applyBoolProp, hinv, hpres]
        simp only [if_true, Bool.false_eq_true, if_false, bitN_eq]
        rw [Nat.testBit_or, Nat.testBit_two_pow_of_ne (Ne.symm hb)]
        simp
  | true =>
    cases hinv : p.invert with
    | false =>
      constructor
      · rw [applyBoolProp, hinv, hpres]
        simp only [Bool.false_eq_true, if_false, if_true, bitN_eq]
        rw [Nat.testBit_or, Nat.testBit_two_pow_self]
        simp
      · intro b hb
        rw [applyBoolProp, hinv, hpres]
        simp only [Bool.false_eq_true, if_false, if_true, bitN_eq]
        rw [Nat.testBit_or, Nat.testBit_two_pow_of_ne (Ne.symm hb),
          testBit_clear16 word _ _ hw, Nat.testBit_two_pow_of_ne (Ne.symm hb)]
        simp
    | true =>
      constructor
      · rw [applyBoolProp, hinv, hpres]
        simp only [if_true, bitN_eq]
        rw [testBit_clear16 _ _ _ hw1, Nat.testBit_two_pow_self]
        simp
      · intro b hb
        rw [applyBoolProp, hinv, hpres]
        simp only [if_true, bitN_eq]
        rw [testBit_clear16 _ _ _ hw1, Nat.testBit_two_pow_of_ne (Ne.symm hb),
          Nat.testBit_or, Nat.testBit_two_pow_of_ne (Ne.symm hb)]
        simp

/-- C4: every one-bit field is first forced to its inverted default and set
to the opposite value only if the key is present; in particular, for every
prior register image, building with the key absent leaves the bit at the
inverted default.  Both variants' builders act identically on boolean fields,
and no other bit or word of the image changes. -/
theorem claim_C4 (ks : KeySource) (setup : List Nat) (p : PropDesc)
    (hw1 : p.reg_width = 1) (hs : p.reg_shift < 16)
    (hoff : p.reg_offset < setup.length)
    (hword : setup.getD p.reg_offset 0 < 2 ^ 16) :
    ∃ s', iqs7219_apply_prop ks setup p = .ok s' ∧
      iqs323_apply_prop ks setup p = .ok s' ∧
      ((s'.getD p.reg_offset 0).testBit p.reg_shift =
        (if ks.present p.name then !p.invert else p.invert)) ∧
      (∀ b, b ≠ p.reg_shift →
        (s'.getD p.reg_offset 0).testBit b =
          (setup.getD p.reg_offset 0).testBit b) ∧
      (∀ o, o ≠ p.reg_offset → s'.getD o 0 = setup.getD o 0) := by
  refine ⟨setup.set p.reg_offset
    (applyBoolProp ks p (setup.getD p.reg_offset 0)), ?_, ?_, ?_, ?_, ?_⟩
  · rw [iqs7219_apply_prop, if_pos hw1]
  · rw [iqs323_apply_prop, if_pos hw1]
  · rw [getD_set_self _ _ _ hoff]
    exact (applyBoolProp_testBit ks p _ hs hword).1
  · intro b hb
    rw [getD_set_self _ _ _ hoff]
    exact (applyBoolProp_testBit ks p _ hs hword).2 b hb
  · intro o ho
    exact getD_set_ne _ _ _ _ ho

/-- Key source for the C4 witness: only the key "azoteq,dual-direction" is
present. -/
def ksDualDir : KeySource :=
  ⟨fun n => n = "azoteq,dual-direction",
   fun n => if n = "azoteq,dual-direction" then .ok 1 else .error (-errInval)⟩

/-- Descriptor "azoteq,invert-enable" of the iqs7219 table (offset 0, shift
1, width 1). -/
def propInvertEnable : PropDesc := mkProp "azoteq,invert-enable" regKeyChan 0 1 1 0 0 0 false

/-- C4 witness: with the "azoteq,invert-enable" key absent, building over a
prior image whose bit 1 is set yields an image with bit 1 at its inverted
default (cleared). -/
theorem claim_C4_witness :
    ∃ s', iqs7219_apply_prop ksDualDir [65535] propInvertEnable = .ok s' ∧
      (s'.getD 0 0).testBit 1 = false := by
  obtain ⟨s', h1, -, h3, -, -⟩ :=
    claim_C4 ksDualDir [65535] propInvertEnable rfl (by decide)
      (by decide) (by decide)
  refine ⟨s', h1, ?_⟩
  have h3' : (s'.getD 0 0).testBit 1 =
      (if ksDualDir.present propInvertEnable.name then !propInvertEnable.invert
       else propInvertEnable.invert) := h3
  rw [h3']
  decide

/-- C5: for every scalar (width > 1) field descriptor, the default maximum is
the full bit-width range scaled by the pitch; an absent key leaves the raw
register bits untouched; a present value outside [min, max] makes the builder
fail with -EINVAL; and an in-range value is encoded by clearing the field's
bit span and OR-ing in either the substitution-table entry or
(value / pitch) << shift. -/
theorem claim_C5 (ks : KeySource) (setup : List Nat) (p : PropDesc)
    (hwgt : 1 < p.reg_width) :
    (p.val_max = 0 → effMax p = genMask (p.reg_width - 1) 0 * effPitch p) ∧
    ((ks.present p.name = false → iqs7219_apply_prop ks setup p = .ok setup) ∧
     (ks.readU32 p.name = .error (-errInval) →
       iqs323_apply_prop ks setup p = .ok setup)) ∧
    (∀ v, ks.present p.name = true → ks.readU32 p.name = .ok v →
      (v < p.val_min ∨ effMax p < v) →
      iqs7219_apply_prop ks setup p = .error (-errInval) ∧
      iqs323_apply_prop ks setup p = .error (-errInval)) ∧
    (∀ v, ks.present p.name = true → ks.readU32 p.name = .ok v →
      p.val_min ≤ v → v ≤ effMax p →
      iqs7219_apply_prop ks setup p =
        .ok (setup.set p.reg_offset
          (encodeScalar p (setup.getD p.reg_offset 0) v)) ∧
      iqs323_apply_prop ks setup p =
        .ok (setup.set p.reg_offset
          (iqs323_encode p (setup.getD p.reg_offset 0) v))) := by
  have hne : ¬(p.reg_width = 1) := by omega
  refine ⟨?_, ⟨?_, ?_⟩, ?_, ?_⟩
  · intro hmax
    rw [effMax, if_pos hmax]
  · intro hpres
    rw [iqs7219_apply_prop, if_neg hne, if_pos hpres]
  · intro hread
    rw [iqs323_apply_prop, if_neg hne, hread]
    simp
  · intro v hpres hread hout
    constructor
    · rw [iqs7219_apply_prop, if_neg hne, if_neg (by simp [hpres]), hread]
      simp only [if_pos hout]
    · rw [iqs323_apply_prop, if_neg hne, hread]
      simp only [if_pos hout]
  · intro v hpres hread hmin hmax
    have hin : ¬(v < p.val_min ∨ effMax p < v) := by omega
    constructor
    · rw [iqs7219_apply_prop, if_neg hne, if_neg (by simp [hpres]), hread]
      simp only [if_neg hin]
    · rw [iqs323_apply_prop, if_neg hne, hread]
      simp only [if_neg hin]

/-- Key source for the C5 witness: only "azoteq,thresh" is present, with
value 400. -/
def ksThresh : KeySource :=
  ⟨fun n => n = "azoteq,thresh",
   fun n => if n = "azoteq,thresh" then .ok 400 else .error (-errInval)⟩

/-- Key source for the C5 witness: only "azoteq,conv-scale" is present, with
the out-of-range value 4. -/
def ksConvScaleBig : KeySource :=
  ⟨fun n => n = "azoteq,conv-scale",
   fun n => if n = "azoteq,conv-scale" then .ok 4 else .error (-errInval)⟩

/-- Channel-group threshold descriptor of the iqs7219 table (offset 11,
width 16). -/
def propThresh : PropDesc := mkProp "azoteq,thresh" regKeyChan 11 0 16 0 0 0 false

/-- Conversion-scale descriptor of the iqs7219 table (offset 3, width 8,
val_max 3). -/
def propConvScale : PropDesc := mkProp "azoteq,conv-scale" regKeyChan 3 0 8 0 0 3 false

/-- Hysteresis descriptor of the iqs7219 table (offset 1, width 16). -/
def propHyst : PropDesc := mkProp "azoteq,hyst" regKeyEvent 1 0 16 0 0 0 false

/-- A 13-word all-zero register image (one channel-group row). -/
def setup13 : List Nat := List.replicate 13 0

/-- C5 witness: the theorem applied to concrete key sources, descriptors and
a concrete prior image — an in-range present value is encoded in place, an
out-of-range present value yields -EINVAL, and an absent key leaves the image
unchanged. -/
theorem claim_C5_witness :
    iqs7219_apply_prop ksThresh setup13 propThresh = .ok (setup13.set 11 400) ∧
    iqs7219_apply_prop ksConvScaleBig setup13 propConvScale = .error (-errInval) ∧
    iqs7219_apply_prop ksThresh setup13 propHyst = .ok setup13 := by
  refine ⟨?_, ?_, ?_⟩
  · have h := (claim_C5 ksThresh setup13 propThresh (by decide)).2.2.2 400
      (by decide) rfl (by decide) (by decide)
    rw [h.1]
    rfl
  · exact ((claim_C5 ksConvScaleBig setup13 propConvScale (by decide)).2.2.1 4
      (by decide) rfl (by decide)).1
  · exact (claim_C5 ksThresh setup13 propHyst (by decide)).2.1.1 (by decide)

/-- C6 counterexample: the descriptor "azoteq,timeout-press-ms" (touch) of
the iqs323 table has val_pitch 512, and the in-range value 1 does not survive
an encode/decode round trip — it encodes to a zero field, which decodes to 0,
not 1. -/
theorem claim_C6_counterexample :
    iqs323_prop_timeout_press_touch.val_min ≤ 1 ∧
    1 ≤ effMax iqs323_prop_timeout_press_touch ∧
    decodeScalar iqs323_prop_timeout_press_touch
      (encodeScalar iqs323_prop_timeout_press_touch 0 1) ≠ 1 := by
  decide

/-- C6 (amended): for every scalar field descriptor, every 16-bit prior word
and every value v in [min, max] that is a multiple of the descriptor's pitch,
encoding v and then decoding the field yields v back, and every bit outside
the span [shift, shift + width) of the target word is unchanged by the
encode; moreover every descriptor of the iqs7219 table has pitch 1 (an unset
val_pitch), no substitution table, and bounds inside the field's range, so
for the iqs7219 table the round trip holds for every in-range value. -/
theorem claim_C6 :
    (∀ (p : PropDesc) (word v : Nat),
      1 ≤ p.reg_width → p.reg_shift + p.reg_width ≤ 16 → word < 2 ^ 16 →
      p.val_min ≤ v → v ≤ effMax p →
      effMax p ≤ genMask (p.reg_width - 1) 0 * effPitch p →
      effPitch p ∣ v →
      decodeScalar p (encodeScalar p word v) = v ∧
      (∀ b, b < p.reg_shift ∨ p.reg_shift + p.reg_width ≤ b →
        (encodeScalar p word v).testBit b = word.testBit b)) ∧
    iqs7219_props.all (fun p => p.val_pitch == 0 && p.val_subs.isNone &&
      decide (1 ≤ p.reg_width) && decide (p.reg_shift + p.reg_width ≤ 16) &&
      decide (effMax p ≤ genMask (p.reg_width - 1) 0 * effPitch p)) = true := by
  constructor
  · intro p word v hW hSW hword hmin hmax hcap hdvd
    have hpitch : 0 < effPitch p := by
      rw [effPitch]
      split <;> omega
    have hgm : genMask (p.reg_width - 1) 0 = 2 ^ p.reg_width - 1 := by
      rw [genMask, Nat.shiftLeft_eq, pow_zero, mul_one]
      have he : p.reg_width - 1 + 1 - 0 = p.reg_width := by omega
      rw [he]
    have hq : v / effPitch p < 2 ^ p.reg_width := by
      have h1 : v ≤ (2 ^ p.reg_width - 1) * effPitch p := by
        calc v ≤ effMax p := hmax
          _ ≤ genMask (p.reg_width - 1) 0 * effPitch p := hcap
          _ = (2 ^ p.reg_width - 1) * effPitch p := by rw [hgm]
      have h2 : v / effPitch p ≤ ((2 ^ p.reg_width - 1) * effPitch p) / effPitch p :=
        Nat.div_le_div_right h1
      rw [Nat.mul_div_cancel _ hpitch] at h2
      have h3 : 0 < 2 ^ p.reg_width := Nat.pos_pow_of_pos _ (by norm_num)
      omega
    have hM : ∀ b, (genMask (p.reg_shift + p.reg_width - 1) p.reg_shift).testBit b =
        (decide (p.reg_shift ≤ b) && decide (b < p.reg_shift + p.reg_width)) := by
      intro b
      rw [testBit_genMask]
      have he : p.reg_shift + p.reg_width - 1 + 1 = p.reg_shift + p.reg_width := by
        omega
      rw [he]
    have henc : ∀ b, (encodeScalar p word v).testBit b =
        ((word.testBit b &&
          !(decide (p.reg_shift ≤ b) && decide (b < p.reg_shift + p.reg_width))) ||
         (decide (b ≥ p.reg_shift) &&
          (v / effPitch p).testBit (b - p.reg_shift))) := by
      intro b
      rw [encodeScalar, Nat.testBit_or, testBit_clear16 _ _ _ hword, hM,
        Nat.testBit_shiftLeft]
    constructor
    · have hfield : ((encodeScalar p word v) >>> p.reg_shift) &&&
          (2 ^ p.reg_width - 1) = v / effPitch p := by
        apply Nat.eq_of_testBit_eq
        intro t
        rw [Nat.testBit_and, Nat.testBit_shiftRight, henc,
          Nat.testBit_two_pow_sub_one]
        by_cases ht : t < p.reg_width
        · have e1 : p.reg_shift ≤ p.reg_shift + t := by omega
          have e2 : p.reg_shift + t < p.reg_shift + p.reg_width := by omega
          have e3 : p.reg_shift + t - p.reg_shift = t := by omega
          have e4 : p.reg_shift + t ≥ p.reg_shift := by omega
          simp [e1, e2, e3, e4, ht]
        · have e5 : (v / effPitch p).testBit t = false := by
            apply Nat.testBit_eq_false_of_lt
            exact lt_of_lt_of_le hq (Nat.pow_le_pow_right (by norm_num) (by omega))
          have e3 : p.reg_shift + t - p.reg_shift = t := by omega
          simp [ht, e3, e5]
      rw [decodeScalar, hgm, hfield, Nat.div_mul_cancel hdvd]
    · intro b hb
      rw [henc]
      rcases hb with hb | hb
      · have h1 : ¬(p.reg_shift ≤ b) := by omega
        have h2 : ¬(b ≥ p.reg_shift) := h1
        simp [h1, h2]
      · have h1 : ¬(b < p.reg_shift + p.reg_width) := by omega
        have h2 : b ≥ p.reg_shift := by omega
        have h3 : (v / effPitch p).testBit (b - p.reg_shift) = false := by
          apply Nat.testBit_eq_false_of_lt
          exact lt_of_lt_of_le hq (Nat.pow_le_pow_right (by norm_num) (by omega))
        simp [h1, h2, h3]
  · decide

/-- C6 witness: the amended round trip applied to the iqs7219 threshold
descriptor at value 400 over the all-ones prior word. -/
theorem claim_C6_witness :
    decodeScalar propThresh (encodeScalar propThresh 65535 400) = 400 ∧
    (encodeScalar propConvScale 65535 2).testBit 9 = (65535 : Nat).testBit 9 := by
  constructor
  · exact (claim_C6.1 propThresh 65535 400 (by decide) (by decide) (by decide)
      (by decide) (by decide) (by decide) (by decide)).1
  · exact (claim_C6.1 propConvScale 65535 2 (by decide) (by decide) (by decide)
      (by decide) (by decide) (by decide) (by decide)).2 9 (by decide)

/-- Helper: a single-bit mask test as a bit test. -/
theorem and_pow_ne_zero (x p : Nat) : (x &&& 2 ^ p ≠ 0) ↔ x.testBit p = true := by
  rw [Nat.and_two_pow]
  cases h : x.testBit p <;> simp [h]

/-- C7: the event decoder handles the status conditions in strict priority
order — a set reset flag re-runs initialization and reports -EAGAIN to a
synchronous caller on successful recovery; otherwise a set ATI-error flag
re-runs the ATI trigger and reports retry; otherwise a set ATI-active flag
reports retry with no recovery action; and only with none of the flags set is
the per-channel decode reached. -/
theorem claim_C7 (sysFlags : Nat) (initRes atiRes : Int) (hasVal : Bool) :
    (sysFlags.testBit 11 = true →
      iqs7219_report_classify sysFlags initRes atiRes hasVal =
        ⟨if hasVal ∧ initRes = 0 then -errAgain else initRes,
         true, false, false⟩) ∧
    (sysFlags.testBit 11 = false → sysFlags.testBit 9 = true →
      iqs7219_report_classify sysFlags initRes atiRes hasVal =
        ⟨if hasVal ∧ atiRes = 0 then -errAgain else atiRes,
         false, true, false⟩) ∧
    (sysFlags.testBit 11 = false → sysFlags.testBit 9 = false →
      sysFlags.testBit 8 = true →
      iqs7219_report_classify sysFlags initRes atiRes hasVal =
        ⟨if hasVal then -errAgain else 0, false, false, false⟩) ∧
    (sysFlags.testBit 11 = false → sysFlags.testBit 9 = false →
      sysFlags.testBit 8 = false →
      iqs7219_report_classify sysFlags initRes atiRes hasVal =
        ⟨0, false, false, true⟩) := by
  refine ⟨?_, ?_, ?_, ?_⟩
  · intro h11
    rw [iqs7219_report_classify, sysStatusReset,
      if_pos ((and_pow_ne_zero _ 11).mpr h11)]
  · intro h11 h9
    rw [iqs7219_report_classify, sysStatusReset, sysStatusAtiError,
      if_neg (fun hc => by rw [(and_pow_ne_zero _ 11).mp hc] at h11; cases h11),
      if_pos ((and_pow_ne_zero _ 9).mpr h9)]
  · intro h11 h9 h8
    rw [iqs7219_report_classify, sysStatusReset, sysStatusAtiError, sysStatusAtiActive,
      if_neg (fun hc => by rw [(and_pow_ne_zero _ 11).mp hc] at h11; cases h11),
      if_neg (fun hc => by rw [(and_pow_ne_zero _ 9).mp hc] at h9; cases h9),
      if_pos ((and_pow_ne_zero _ 8).mpr h8)]
  · intro h11 h9 h8
    rw [iqs7219_report_classify, sysStatusReset, sysStatusAtiError, sysStatusAtiActive,
      if_neg (fun hc => by rw [(and_pow_ne_zero _ 11).mp hc] at h11; cases h11),
      if_neg (fun hc => by rw [(and_pow_ne_zero _ 9).mp hc] at h9; cases h9),
      if_neg (fun hc => by rw [(and_pow_ne_zero _ 8).mp hc] at h8; cases h8)]

/-- C7 witness: the classification applied to the four representative status
words — reset together with ATI error picks the reset path, ATI error
together with ATI active picks the ATI path, ATI active alone reports retry
only, and a clear status reaches the decode. -/
theorem claim_C7_witness :
    iqs7219_report_classify (2 ^ 11 + 2 ^ 9) (-5) 0 true =
      ⟨-5, true, false, false⟩ ∧
    iqs7219_report_classify (2 ^ 9 + 2 ^ 8) 0 0 true =
      ⟨-errAgain, false, true, false⟩ ∧
    iqs7219_report_classify (2 ^ 8) 0 0 true =
      ⟨-errAgain, false, false, false⟩ ∧
    iqs7219_report_classify 0 0 0 true = ⟨0, false, false, true⟩ := by
  refine ⟨?_, ?_, ?_, ?_⟩
  · rw [(claim_C7 (2 ^ 11 + 2 ^ 9) (-5) 0 true).1 (by decide)]
    decide
  · rw [(claim_C7 (2 ^ 9 + 2 ^ 8) 0 0 true).2.1 (by decide) (by decide)]
    decide
  · rw [(claim_C7 (2 ^ 8) 0 0 true).2.2.1 (by decide) (by decide) (by decide)]
    decide
  · rw [(claim_C7 0 0 0 true).2.2.2 (by decide) (by decide) (by decide)]

/-- C8: for every channel on every status read, the derived delta value is
max(longTermAverage - filteredCounts, 0) and hence never negative; with
long-term average 100 and filtered counts 150 the delta is 0, and with
long-term average 150 and filtered counts 100 the delta is 50. -/
theorem claim_C8 :
    (∀ (valBuf : Nat → Nat) (pxsFlags i : Nat),
      (iqs7219_scan_vals valBuf pxsFlags i).getD 0 0 =
        iqs7219_scan_delta (valBuf (3 + i * 2)) (valBuf (2 + i * 2)) ∧
      iqs7219_scan_delta (valBuf (3 + i * 2)) (valBuf (2 + i * 2)) =
        max ((valBuf (3 + i * 2) : Int) - (valBuf (2 + i * 2) : Int)) 0 ∧
      0 ≤ (iqs7219_scan_vals valBuf pxsFlags i).getD 0 0) ∧
    iqs7219_scan_delta 100 150 = 0 ∧
    iqs7219_scan_delta 150 100 = 50 := by
  refine ⟨?_, by decide, by decide⟩
  intro valBuf pxsFlags i
  refine ⟨rfl, rfl, ?_⟩
  have h : (iqs7219_scan_vals valBuf pxsFlags i).getD 0 0 =
      max ((valBuf (3 + i * 2) : Int) - (valBuf (2 + i * 2) : Int)) 0 := rfl
  rw [h]
  exact le_max_right _ _

/-- C9 counterexample: on resume (power mode USER) with an environment whose
identity reads would all mismatch, the driver performs no identity read and
no reset at all — the recovery loop breaks right after the single mode
write. -/
def pmEnvMismatch : PmEnv :=
  ⟨fun _ => 0, fun _ => .ok 999, fun _ => 0, fun _ => 0⟩

/-- C9 counterexample: the resume path executes one mode write, zero identity
reads, zero hard resets and zero re-initializations even though every
identity read the environment could serve would mismatch. -/
theorem claim_C9_counterexample :
    iqs323_resume pmEnvMismatch 323 = ⟨0, 1, 0, 0, 0⟩ := by
  decide

/-- C9 (amended): the defensive identity re-read loop belongs to the entry
into low power, not to resume — on suspend (power mode HALT), when every mode
write succeeds and every identity read returns a value different from the
expected product number, the driver re-reads the identity register five
times, performing a full hardware reset followed by re-initialization after
each mismatch, and finally gives up with -EIO; on resume (power mode USER)
the driver writes the mode once and performs no identity read. -/
theorem claim_C9 :
    (∀ (env : PmEnv) (prodNum : Nat),
      iqs323_resume env prodNum = ⟨env.writeMode 0, 1, 0, 0, 0⟩) ∧
    (∀ (env : PmEnv) (prodNum : Nat),
      (∀ i, i < numRetries → env.writeMode i = 0) →
      (∀ i, i < numRetries → ∃ v, env.readProd i = .ok v ∧ v ≠ prodNum) →
      (∀ i, i < numRetries → env.hardReset i = 0) →
      (∀ i, i < numRetries → env.devInit i = 0) →
      iqs323_suspend env prodNum = ⟨-errIoErr, 5, 5, 5, 5⟩) := by
  constructor
  · intro env prodNum
    show iqs323_pm_loop env prodNum
      (decide (iqs323PowerModeUser = iqs323PowerModeUser)) 0 (4 + 1) = _
    rw [iqs323_pm_loop, if_pos (Or.inr (by decide))]
  · intro env prodNum hw hr hh hd
    have step : ∀ i fuel, i < 5 →
        iqs323_pm_loop env prodNum
          (decide (iqs323PowerModeHalt = iqs323PowerModeUser)) i (fuel + 1) =
        ⟨(iqs323_pm_loop env prodNum
            (decide (iqs323PowerModeHalt = iqs323PowerModeUser)) (i + 1) fuel).result,
         (iqs323_pm_loop env prodNum
            (decide (iqs323PowerModeHalt = iqs323PowerModeUser)) (i + 1) fuel).modeWrites + 1,
         (iqs323_pm_loop env prodNum
            (decide (iqs323PowerModeHalt = iqs323PowerModeUser)) (i + 1) fuel).prodReads + 1,
         (iqs323_pm_loop env prodNum
            (decide (iqs323PowerModeHalt = iqs323PowerModeUser)) (i + 1) fuel).resets + 1,
         (iqs323_pm_loop env prodNum
            (decide (iqs323PowerModeHalt = iqs323PowerModeUser)) (i + 1) fuel).inits + 1⟩ := by
      intro i fuel hi
      obtain ⟨v, hv, hvne⟩ := hr i hi
      rw [iqs323_pm_loop]
      rw [hw i hi, hv]
      rw [if_neg (by decide)]
      simp only []
      rw [if_neg hvne, hh i hi, if_neg (by decide), hd i hi, if_neg (by decide)]
    show iqs323_pm_loop env prodNum
      (decide (iqs323PowerModeHalt = iqs323PowerModeUser)) 0 (4 + 1) = _
    rw [step 0 4 (by norm_num)]
    rw [show (4 : Nat) = 3 + 1 from rfl, step 1 3 (by norm_num)]
    rw [show (3 : Nat) = 2 + 1 from rfl, step 2 2 (by norm_num)]
    rw [show (2 : Nat) = 1 + 1 from rfl, step 3 1 (by norm_num)]
    rw [show (1 : Nat) = 0 + 1 from rfl, step 4 0 (by norm_num)]
    rfl

/-- Environment stub for the C9 witness: writes, resets and inits succeed and
the identity register always reads 0. -/
def pmEnvZero : PmEnv := ⟨fun _ => 0, fun _ => .ok 0, fun _ => 0, fun _ => 0⟩

/-- C9 witness: the amended theorem applied to the concrete environment —
resume writes once without reading the identity, and suspend against a
persistently mismatching identity runs all five recovery iterations and
fails with -EIO. -/
theorem claim_C9_witness :
    iqs323_resume pmEnvZero 323 = ⟨0, 1, 0, 0, 0⟩ ∧
    iqs323_suspend pmEnvZero 323 = ⟨-errIoErr, 5, 5, 5, 5⟩ := by
  constructor
  · exact claim_C9.1 pmEnvZero 323
  · exact claim_C9.2 pmEnvZero 323 (fun i _ => rfl)
      (fun i _ => ⟨0, rfl, by decide⟩) (fun i _ => rfl) (fun i _ => rfl)

/-- C10 counterexample: the selector value 6 (IQS7219_NUM_SCAN itself) passes
the strict greater-than bounds check and is stored, yet indexes one past the
end of the six-element per-channel scan array in the status-report path. -/
theorem claim_C10_counterexample :
    iqs7219_scan_mux_set numScan = .ok numScan ∧
    iqs7219_scan_data (fun _ => 0) 0 0 numScan = none := by
  exact ⟨rfl, rfl⟩

/-- C10 (amended): the bounds check accepts exactly the selector values up to
and including IQS7219_NUM_SCAN = 6; the per-channel scan array has six
entries; and every accepted selector other than the off-the-end value 6
indexes within its bounds (the value 6 itself, as shown by the
counterexample, does not). -/
theorem claim_C10 :
    (∀ v, iqs7219_scan_mux_set v = .ok v ↔ v ≤ numScan) ∧
    (∀ (valBuf : Nat → Nat) (pxsFlags i : Nat),
      (iqs7219_scan_vals valBuf pxsFlags i).length = numScan) ∧
    (∀ (valBuf : Nat → Nat) (pxsFlags i v : Nat), v ≤ numScan → v ≠ numScan →
      (iqs7219_scan_data valBuf pxsFlags i v).isSome = true) := by
  refine ⟨?_, ?_, ?_⟩
  · intro v
    constructor
    · intro h
      by_cases hv : numScan < v
      · rw [iqs7219_scan_mux_set, if_pos hv] at h
        cases h
      · omega
    · intro h
      rw [iqs7219_scan_mux_set, if_neg (by omega)]
  · intro valBuf pxsFlags i
    rfl
  · intro valBuf pxsFlags i v hle hne
    have h6 : v ≤ 6 := hle
    have hne6 : v ≠ 6 := hne
    have hlt : v < 6 := by omega
    interval_cases v <;> rfl

/-- C10 witness: the amended theorem applied to selector 3 — accepted by the
check and within the bounds of the scan array. -/
theorem claim_C10_witness :
    iqs7219_scan_mux_set 3 = .ok 3 ∧
    (iqs7219_scan_data (fun _ => 0) 0 0 3).isSome = true := by
  constructor
  · exact (claim_C10.1 3).mpr (by decide)
  · exact claim_C10.2.2 (fun _ => 0) 0 0 3 (by decide) (by decide)

end Iqs
